/-
  Verification of the StockAnalysis trading core.

  Shallow embedding of the decision, sizing, limit-guard and reconciliation
  logic of the repository (stock_analyzer.py, bot_dashboard.py,
  auto_trader.py, auto_sim_bot.py).  Machine floats are modelled as exact
  rationals; pandas NaN / undefined values are modelled as `Option.none`.
-/
import Mathlib

namespace StockAnalysis

/-! ## Numeric helpers shared by several components -/

/-- Python `int(x)` truncation toward zero on a rational value. -/
def pyInt (q : ℚ) : ℤ := if 0 ≤ q then ⌊q⌋ else ⌈q⌉

/-- Round to the nearest integer, ties to even — the semantics of Python `round`. -/
def rint (q : ℚ) : ℤ :=
  let f := ⌊q⌋
  if q - f < 1 / 2 then f
  else if 1 / 2 < q - f then f + 1
  else if f % 2 = 0 then f else f + 1

/-- Python `round(x, n)`: round to `n` decimal digits, ties to even. -/
def pyRound (q : ℚ) (n : ℕ) : ℚ := (rint (q * 10 ^ n) : ℚ) / 10 ^ n

/-! ## Signal Fusion (src/bot_dashboard.py, `analyze_stock_1week`, lines 364-381)

    The secondary fusion stage combining the technical signal with the
    news-sentiment signal into a final recommendation and confidence label. -/

/-- Fusion of `tech_signal` with `news_signal`: starts from
    `final_signal = tech_signal`, `confidence = "MEDIUM"`, then applies the
    four agreement/disagreement cases of the source. -/
def fuseSignals (tech news : String) : String × String :=
  if tech = "BUY" ∧ news = "BUY" then ("STRONG BUY", "HIGH")
  else if tech = "SELL" ∧ news = "SELL" then ("STRONG SELL", "HIGH")
  else if tech = "BUY" ∧ news = "SELL" then ("HOLD", "LOW")
  else if tech = "SELL" ∧ news = "BUY" then ("HOLD", "LOW")
  else (tech, "MEDIUM")

/-! ## Daily Limit Guard (src/auto_trader.py, `AutoTrader`, lines 33-67) -/

/-- One row of the user trade log as the guard sees it: the trade side and
    the calendar date (day number) on which it executed. -/
structure DbTradeRec where
  side : String
  executed_date : ℕ
deriving DecidableEq, Repr

/-- `get_today_trade_count`: same-day counts `(total, buys, sells)` obtained by
    filtering records whose execution date equals `today`. -/
def today_counts (trades : List DbTradeRec) (today : ℕ) : ℕ × ℕ × ℕ :=
  let t := trades.filter (fun r => r.executed_date == today)
  (t.length,
   (t.filter (fun r => r.side == "BUY")).length,
   (t.filter (fun r => r.side == "SELL")).length)

/-- `check_daily_limits`: `true` means the plan is allowed, `false` blocked. -/
def check_daily_limits (trades : List DbTradeRec) (today : ℕ)
    (max_daily_trades max_daily_buys max_daily_sells : ℕ) (action : String) : Bool :=
  let c := today_counts trades today
  if max_daily_trades ≤ c.1 then false
  else if action = "BUY" ∧ max_daily_buys ≤ c.2.1 then false
  else if action = "SELL" ∧ max_daily_sells ≤ c.2.2 then false
  else true

/-! ## Decision Engine (src/stock_analyzer.py, `StockAnalyzer.generate_signal`,
    lines 348-434)

    We embed the decision logic of `generate_signal` as a function of the
    check results it consumes (the fetching of those results is an external
    port). -/

/-- Check results feeding the decision logic: the four buy criteria booleans,
    the numbers read from `ma_check` (`.get(..., 0)` defaults to 0), the
    `above_50` flag and the two growth figures fetched by
    `eps_check.get('yoy_growth', -100)` / `annual_growth.get('avg_growth', -100)`.
    The check dicts always carry those keys — every return of
    `check_eps_growth` / `check_annual_growth` includes them, with value
    `None` on the no-data paths — so the `-100` defaults are dead and the
    fetched value is either a number (`some`) or Python `None` (`none`). -/
structure SignalInputs where
  fundamental : Bool
  technical : Bool
  volume : Bool
  market : Bool
  current_price : ℚ
  ma_50 : ℚ
  ma_200 : ℚ
  above_50 : Bool
  eps_yoy_growth : Option ℚ
  annual_avg_growth : Option ℚ
deriving DecidableEq, Repr

/-- `buy_score = sum(buy_criteria.values())`. -/
def buy_score (i : SignalInputs) : ℕ :=
  i.fundamental.toNat + i.technical.toNat + i.volume.toNat + i.market.toNat

/-- The `sell_reasons` list; each check requires the price and the MA to be
    truthy (nonzero) before comparing, as in the source. -/
def sell_reasons (i : SignalInputs) : List String :=
  (if i.current_price ≠ 0 ∧ i.ma_50 ≠ 0 ∧ i.current_price < i.ma_50 then
    ["Price below 50-day MA"] else []) ++
  (if i.current_price ≠ 0 ∧ i.ma_200 ≠ 0 ∧ i.current_price < i.ma_200 then
    ["Price below 200-day MA"] else [])

/-- The `positive_fundamentals` entry of the hold-criteria dict:
    `eps > 0 or annual > 0` with Python short-circuit evaluation, where
    comparing `None > 0` raises a TypeError (`none`). -/
def positive_growth_check (eps annual : Option ℚ) : Option Bool :=
  match eps with
  | none => none
  | some x =>
    if 0 < x then some true
    else
      match annual with
      | none => none
      | some y => some (0 < y)

/-- The outcome triple returned by `generate_signal`. -/
structure SignalResult where
  signal : String
  confidence : ℕ
  reason : String
deriving DecidableEq, Repr

/-- The decision logic of `generate_signal`: the hold-criteria dict is built
    before the decision chain, so a `None` growth figure reached by the
    short-circuit raises a TypeError (`none`) regardless of which branch
    would have been taken; otherwise the ranked sell / strong-buy / buy /
    hold chain runs, with the confidence capped via `min(100, confidence)`
    at the return site. -/
def generate_signal (i : SignalInputs) : Option SignalResult :=
  match positive_growth_check i.eps_yoy_growth i.annual_avg_growth with
  | none => none
  | some pf =>
    let sr := sell_reasons i
    let raw : SignalResult :=
      if sr ≠ [] then
        { signal := "SELL", confidence := 30 * sr.length,
          reason := String.intercalate "; " sr }
      else if buy_score i = 4 then
        { signal := "STRONG BUY", confidence := 95,
          reason := "All buy criteria met: Fundamentals + Technicals + Volume + Market" }
      else if buy_score i = 3 then
        { signal := "BUY", confidence := 75, reason := "3 of 4 buy criteria met" }
      else if 1 ≤ i.above_50.toNat + pf.toNat then
        { signal := "HOLD", confidence := 50,
          reason := "Stock maintaining support, fundamentals stable" }
      else
        { signal := "HOLD", confidence := 30, reason := "Insufficient buy/sell signals" }
    some { raw with confidence := min 100 raw.confidence }

/-! ## Risk-Sized Execution Planner (src/bot_dashboard.py,
    `calculate_position_size`, lines 566-609) -/

/-- One daily OHLC bar as used by the ATR computation. -/
structure PriceBar where
  high : ℚ
  low : ℚ
  close : ℚ
deriving DecidableEq, Repr

/-- True ranges of the bars after the first, each relative to the previous
    bar's close: `max(high - low, |high - prev_close|, |low - prev_close|)`. -/
def trTail (prev : PriceBar) : List PriceBar → List ℚ
  | [] => []
  | b :: rest =>
    max (b.high - b.low) (max |b.high - prev.close| |b.low - prev.close|) :: trTail b rest

/-- The full true-range series; for the first bar `prev_close` is NaN and the
    row-wise max (which skips NaN) degenerates to `high - low`. -/
def trueRanges : List PriceBar → List ℚ
  | [] => []
  | b :: rest => (b.high - b.low) :: trTail b rest

/-- Last value of `tr.rolling(window=14).mean()`: the mean of the last 14 true
    ranges, NaN (`none`) when fewer than 14 bars exist. -/
def atrLast (bars : List PriceBar) : Option ℚ :=
  let trs := trueRanges bars
  if trs.length < 14 then none
  else some ((trs.drop (trs.length - 14)).sum / 14)

/-- `calculate_position_size`: ATR-risk sizing
    `qty = int((equity * risk_percent) / (ATR * max_risk_atr_multiplier))`,
    returning 0 on any of the guard branches of the source. -/
def calculate_position_size (equity entry_price risk_percent atr_mult : ℚ)
    (bars : List PriceBar) : ℤ :=
  if equity ≤ 0 ∨ entry_price ≤ 0 then 0
  else
    let risk_cap := equity * risk_percent
    if bars.length < 15 then 0
    else
      match atrLast bars with
      | none => 0
      | some atr_val =>
        if atr_val ≤ 0 then 0
        else
          let per_share_risk := atr_val * atr_mult
          if per_share_risk ≤ 0 then 0
          else max (pyInt (risk_cap / per_share_risk)) 0

/-! ## Trade Ledger Reconciler (src/bot_dashboard.py, `analyze_pnl`,
    lines 612-707) -/

/-- Python `str.upper()` restricted to the ASCII strings the ledger uses. -/
def pyUpper (s : String) : String := ⟨s.data.map Char.toUpper⟩

/-- An open buy lot: entry price and remaining quantity. -/
structure Lot where
  price : ℚ
  qty : ℚ
deriving DecidableEq, Repr

/-- A matched buy/sell pair with its realized profit or loss, with the
    rounding applied by the source (`round(..., 4)` on prices,
    `round(..., 2)` on the PnL). -/
structure PnLPair where
  symbol : String
  buy_price : ℚ
  sell_price : ℚ
  qty : ℚ
  pnl : ℚ
deriving DecidableEq, Repr

/-- The pair record appended by the matching loop for a match of `m` shares. -/
def mkPair (sym : String) (buyPrice sellPrice m : ℚ) : PnLPair :=
  ⟨sym, pyRound buyPrice 4, pyRound sellPrice 4, m, pyRound ((sellPrice - buyPrice) * m) 2⟩

/-- The `while sell_qty > 0 and open_buys[sym]` loop of `analyze_pnl`:
    repeatedly match `min(lot.qty, sell_qty)` against the oldest lot, emit a
    pair, decrement both; pop the lot when exhausted, otherwise stop.
    Returns the emitted pairs and the remaining open lots. -/
def matchSell (sym : String) (sellPrice : ℚ) : List Lot → ℚ → List PnLPair × List Lot
  | [], _ => ([], [])
  | lot :: rest, sellQty =>
    if sellQty ≤ 0 then ([], lot :: rest)
    else
      let m := min lot.qty sellQty
      let pair := mkPair sym lot.price sellPrice m
      if lot.qty - m ≤ 0 then
        let next := matchSell sym sellPrice rest (sellQty - m)
        (pair :: next.1, next.2)
      else
        ([pair], ⟨lot.price, lot.qty - m⟩ :: rest)

/-- The `open_buys` dictionary, as an association list keyed by symbol. -/
def lotsOf (m : List (String × List Lot)) (sym : String) : List Lot :=
  ((m.find? (fun p => p.1 == sym)).map Prod.snd).getD []

/-- Store a symbol's lot queue back into the dictionary. -/
def setLots (m : List (String × List Lot)) (sym : String) (lots : List Lot) :
    List (String × List Lot) :=
  if m.any (fun p => p.1 == sym) then
    m.map (fun p => if p.1 == sym then (sym, lots) else p)
  else m ++ [(sym, lots)]

/-- One row of the trade log as `analyze_pnl` reads it (fields already
    parsed; `qty` defaults to 1.0 upstream when absent). -/
structure TradeRow where
  symbol : String
  status : String
  action : String
  price : ℚ
  qty : ℚ
deriving DecidableEq, Repr

/-- The reconciler's running state: open buy lots per symbol, emitted pairs. -/
structure ReconState where
  open_buys : List (String × List Lot)
  pairs : List PnLPair
deriving DecidableEq, Repr

/-- Processing of one row: a BUY with status OPEN appends a lot; a SELL for a
    symbol with a nonempty lot queue runs the matching loop; anything else is
    ignored. -/
def reconStep (st : ReconState) (row : TradeRow) : ReconState :=
  let sym := pyUpper row.symbol
  let status := pyUpper row.status
  let action := pyUpper row.action
  if action = "BUY" ∧ status = "OPEN" then
    { st with open_buys := setLots st.open_buys sym (lotsOf st.open_buys sym ++ [⟨row.price, row.qty⟩]) }
  else if action = "SELL" ∧ lotsOf st.open_buys sym ≠ [] then
    let res := matchSell sym row.price (lotsOf st.open_buys sym) row.qty
    { open_buys := setLots st.open_buys sym res.2, pairs := st.pairs ++ res.1 }
  else st

/-- The state after the row loop of `analyze_pnl` over a (time-ordered) log. -/
def analyze_pnl_state (log : List TradeRow) : ReconState :=
  log.foldl reconStep ⟨[], []⟩

/-- Scenario D's trade log: a buy lot (price 100, qty 10) followed by a sell
    (price 110, qty 6). -/
def scenarioD_log : List TradeRow :=
  [⟨"AAPL", "OPEN", "BUY", 100, 10⟩, ⟨"AAPL", "FILLED", "SELL", 110, 6⟩]

/-- A trade log with a single fully matched winning pair. -/
def oneWin_log : List TradeRow :=
  [⟨"AAPL", "OPEN", "BUY", 100, 1⟩, ⟨"AAPL", "FILLED", "SELL", 110, 1⟩]

/-- The summary returned by `analyze_pnl`. -/
structure PnLSummary where
  realized_pnl : ℚ
  win_rate : ℚ
  paired_trades : ℕ
  pair_details : List PnLPair
deriving DecidableEq, Repr

/-- `analyze_pnl`: realized PnL is the rounded sum of pair PnLs; the win rate
    is the percentage of winning pairs, 0.0 when no pairs exist. -/
def analyze_pnl (log : List TradeRow) : PnLSummary :=
  let pairs := (analyze_pnl_state log).pairs
  let paired := pairs.length
  let wins := (pairs.filter (fun p => decide (0 < p.pnl))).length
  { realized_pnl := pyRound (pairs.map (fun p => p.pnl)).sum 2
    win_rate := if paired = 0 then 0 else pyRound ((wins : ℚ) / (paired : ℚ) * 100) 2
    paired_trades := paired
    pair_details := pairs }

/-! ## RSI (src/auto_sim_bot.py, `rsi`, lines 32-42)

    `series.diff()` produces NaN at index 0 and the successive differences
    afterwards; `clip` keeps the sign split; `ewm(alpha=1/period,
    min_periods=period, adjust=False).mean()` is the recursion
    `y₀ = x₀, yₜ = (1−α)·yₜ₋₁ + α·xₜ` over the non-NaN entries, undefined
    until `period` observations exist.  We model the value at the final bar;
    `none` is pandas NaN.  The unguarded float division `gain / loss` follows
    IEEE semantics: `g / 0 = +∞` for `g > 0` (so the RSI becomes
    `100 − 100/(1+∞) = 100`) and `0 / 0 = NaN`. -/

/-- Successive differences of a series (`series.diff()` without its NaN head). -/
def diffs : List ℚ → List ℚ
  | [] => []
  | [_] => []
  | a :: b :: rest => (b - a) :: diffs (b :: rest)

/-- Final value of `ewm(alpha, adjust=False).mean()`: seeded with the first
    observation, then exponentially smoothed. -/
def ewmLast (alpha : ℚ) : List ℚ → Option ℚ
  | [] => none
  | x :: rest => some (rest.foldl (fun y v => (1 - alpha) * y + alpha * v) x)

/-- Final smoothed average gain (NaN until `period` differences exist). -/
def avg_gain_last (closes : List ℚ) (period : ℕ) : Option ℚ :=
  let g := (diffs closes).map (fun d => max d 0)
  if g.length < period then none else ewmLast (1 / (period : ℚ)) g

/-- Final smoothed average loss (NaN until `period` differences exist). -/
def avg_loss_last (closes : List ℚ) (period : ℕ) : Option ℚ :=
  let l := (diffs closes).map (fun d => max (-d) 0)
  if l.length < period then none else ewmLast (1 / (period : ℚ)) l

/-- Final value of `100 - (100 / (1 + avg_gain / avg_loss))` under IEEE float
    semantics for the division by a zero average loss. -/
def rsi_last (closes : List ℚ) (period : ℕ) : Option ℚ :=
  match avg_gain_last closes period, avg_loss_last closes period with
  | some g, some l =>
    if l = 0 then (if 0 < g then some 100 else none)
    else some (100 - 100 / (1 + g / l))
  | _, _ => none

/-- A constant 15-bar close series (all differences are zero). -/
def flatCloses : List ℚ := [1, 1, 1, 1, 1, 1, 1, 1, 1, 1, 1, 1, 1, 1, 1]

/-- A strictly increasing 15-bar close series (all losses are zero, gains 1). -/
def upCloses : List ℚ := [1, 2, 3, 4, 5, 6, 7, 8, 9, 10, 11, 12, 13, 14, 15]

/-! ## Relative strength (src/stock_analyzer.py,
    `StockAnalyzer.calculate_relative_strength`, lines 232-282) -/

/-- Percent return over the last `p` bars:
    `(close.iloc[-1] - close.iloc[-p]) / close.iloc[-p] * 100`
    (used only when the series has at least `p` bars). -/
def ret_over (closes : List ℚ) (p : ℕ) : ℚ :=
  (closes.getD (closes.length - 1) 0 - closes.getD (closes.length - p) 0) /
    closes.getD (closes.length - p) 0 * 100

/-- The lookback horizons, longest first: 1yr, 6mo, 3mo, 1mo in trading days. -/
def rs_periods : List ℕ := [252, 126, 63, 21]

/-- The fixed weights zipped positionally with the collected returns. -/
def rs_weights : List ℚ := [0.4, 0.3, 0.2, 0.1]

/-- The per-horizon (stock, benchmark) return pairs, kept only when both
    series have at least `p` bars. -/
def rs_returns (stock spy : List ℚ) : List (ℚ × ℚ) :=
  rs_periods.filterMap (fun p =>
    if p ≤ stock.length ∧ p ≤ spy.length then some (ret_over stock p, ret_over spy p)
    else none)

/-- `calculate_relative_strength`: weighted stock and benchmark returns,
    outperformance, and the rating `min(100, max(0, 50 + outperformance))`;
    `none` when no horizons are available. -/
def calculate_relative_strength (stock spy : List ℚ) : Option ℚ :=
  let rts := rs_returns stock spy
  if rts = [] then none
  else
    let weighted_stock :=
      ((rts.map Prod.fst).zip rs_weights).foldl (fun acc sw => acc + sw.1 * sw.2) 0
    let weighted_spy :=
      ((rts.map Prod.snd).zip rs_weights).foldl (fun acc sw => acc + sw.1 * sw.2) 0
    some (min 100 (max 0 (50 + (weighted_stock - weighted_spy))))

/-- A 252-bar stock series whose only gain (10 → 11) lies more than 126 bars
    in the past: its 252-bar return is 10% and its 126/63/21-bar returns
    are 0. -/
def staleGainStock : List ℚ := List.replicate 126 10 ++ List.replicate 126 11

/-- A flat 252-bar benchmark series. -/
def flatBenchmark : List ℚ := List.replicate 252 10

/-! ## Simulator (src/auto_sim_bot.py, `Simulator`, lines 60-173)

    The simulated execution engine: a positions dictionary (modelled as an
    association list keyed by symbol, insertion at the end as in a Python
    dict), cash, and an append-only trade log.  Timestamps and the formatted
    PnL suffix of the close note are wall-clock/string formatting and are not
    modelled. -/

/-- `QTY = 1`: the simulated position size in shares. -/
def QTY : ℤ := 1

/-- `SL_PCT = 0.02`: the stop-loss percentage. -/
def SL_PCT : ℚ := 0.02

/-- `TP_PCT = 0.05`: the take-profit percentage. -/
def TP_PCT : ℚ := 0.05

/-- An open simulated position. -/
structure Position where
  side : String
  qty : ℤ
  entry : ℚ
  stop : ℚ
  take : ℚ
deriving DecidableEq, Repr

/-- One row of the simulator's trade log (`_log_trade`): the price is logged
    with `round(price, 4)` and the cash with `round(cash, 2)`. -/
structure SimRow where
  symbol : String
  action : String
  side : String
  qty : ℤ
  price : ℚ
  cash_after : ℚ
  note : String
deriving DecidableEq, Repr

/-- The simulator's mutable state. -/
structure SimState where
  positions : List (String × Position)
  cash : ℚ
  trade_log : List SimRow
deriving DecidableEq, Repr

/-- `self.positions.get(symbol)` on the association list. -/
def posn (ps : List (String × Position)) (sym : String) : Option Position :=
  (ps.find? (fun p => p.1 == sym)).map Prod.snd

/-- `_log_trade`: append one row to the trade log. -/
def logRow (s : SimState) (symbol action side : String) (qty : ℤ) (price : ℚ)
    (note : String) : SimState :=
  { s with trade_log :=
      s.trade_log ++ [⟨symbol, action, side, qty, pyRound price 4, pyRound s.cash 2, note⟩] }

/-- `enter_long`: no-op when the symbol already has a position; a REJECT log
    row when cash is insufficient; otherwise deduct cash, open the LONG
    position and log it. -/
def enter_long (s : SimState) (sym : String) (price : ℚ) : SimState :=
  if (posn s.positions sym).isSome then s
  else if s.cash < price * (QTY : ℚ) then
    logRow s sym "REJECT" "LONG" 0 price "Insufficient cash"
  else
    let s1 : SimState :=
      { s with cash := s.cash - price * (QTY : ℚ),
               positions := s.positions ++
                 [(sym, ⟨"LONG", QTY, price, price * (1 - SL_PCT), price * (1 + TP_PCT)⟩)] }
    logRow s1 sym "OPEN" "LONG" QTY price "Enter long"

/-- `enter_short`: no-op when the symbol already has a position; otherwise
    open the SHORT position (no cash or borrow accounting) and log it. -/
def enter_short (s : SimState) (sym : String) (price : ℚ) : SimState :=
  if (posn s.positions sym).isSome then s
  else
    let s1 : SimState :=
      { s with positions := s.positions ++
          [(sym, ⟨"SHORT", QTY, price, price * (1 + SL_PCT), price * (1 - TP_PCT)⟩)] }
    logRow s1 sym "OPEN" "SHORT" QTY price "Enter short"

/-- `exit_position`: no-op without a position; otherwise realize PnL into
    cash (sale proceeds for LONG, the PnL itself for SHORT), log the CLOSE
    and delete the symbol's entry. -/
def exit_position (s : SimState) (sym : String) (price : ℚ) (note : String) : SimState :=
  match posn s.positions sym with
  | none => s
  | some pos =>
    let cash1 := if pos.side = "LONG" then s.cash + price * (pos.qty : ℚ)
      else s.cash + (pos.entry - price) * (pos.qty : ℚ)
    let s1 : SimState :=
      { s with cash := cash1,
               positions := s.positions.eraseP (fun p => p.1 == sym) }
    logRow s1 sym "CLOSE" pos.side pos.qty price note

/-- `manage_exits`: stop-loss / take-profit exit checks for an open position
    at the current price. -/
def manage_exits (s : SimState) (sym : String) (price : ℚ) : SimState :=
  match posn s.positions sym with
  | none => s
  | some pos =>
    if pos.side = "LONG" then
      if price ≤ pos.stop then exit_position s sym price "Stop-loss hit"
      else if pos.take ≤ price then exit_position s sym price "Take-profit hit"
      else s
    else
      if pos.stop ≤ price then exit_position s sym price "Stop-loss hit"
      else if price ≤ pos.take then exit_position s sym price "Take-profit hit"
      else s

/-- The simulator's initial state: no positions, cash 100000, empty log. -/
def initState : SimState := ⟨[], 100000, []⟩

/-- States reachable from the initial state through the simulator's
    operations. -/
inductive Reachable : SimState → Prop
  | init : Reachable initState
  | enterLong : ∀ s sym price, Reachable s → Reachable (enter_long s sym price)
  | enterShort : ∀ s sym price, Reachable s → Reachable (enter_short s sym price)
  | exitPos : ∀ s sym price note, Reachable s → Reachable (exit_position s sym price note)
  | manageExits : ∀ s sym price, Reachable s → Reachable (manage_exits s sym price)

/-- Each symbol occurs at most once in the positions dictionary. -/
def keysNodup (s : SimState) : Prop := (s.positions.map Prod.fst).Nodup

/-! ## Theorems -/

/-- `getD` on a replicated list returns the repeated element in range. -/
theorem getD_replicate {α : Type} (a d : α) :
    ∀ (n i : ℕ), i < n → (List.replicate n a).getD i d = a := by
  intro n
  induction n with
  | zero => intro i h; exact absurd h (Nat.not_lt_zero i)
  | succ n ih =>
    intro i h
    cases i with
    | zero => rfl
    | succ j =>
      simp only [List.replicate_succ, List.getD_cons_succ]
      exact ih j (Nat.lt_of_succ_lt_succ h)

/-- Truncation toward zero is monotone. -/
theorem pyInt_mono {a b : ℚ} (h : a ≤ b) : pyInt a ≤ pyInt b := by
  unfold pyInt
  split_ifs with h1 h2 h2
  · exact Int.floor_mono h
  · exact absurd (le_trans h1 h) h2
  · calc ⌈a⌉ ≤ 0 := Int.ceil_le.mpr (by exact_mod_cast le_of_lt (not_le.mp h1))
      _ ≤ ⌊b⌋ := Int.le_floor.mpr (by exact_mod_cast h2)
  · exact Int.ceil_mono h

/-- Fifteen identical bars with range 2 around a close of 10; their ATR is 2
    (Scenario C's volatility input). -/
def scenarioBars : List PriceBar :=
  [⟨11, 9, 10⟩, ⟨11, 9, 10⟩, ⟨11, 9, 10⟩, ⟨11, 9, 10⟩, ⟨11, 9, 10⟩,
   ⟨11, 9, 10⟩, ⟨11, 9, 10⟩, ⟨11, 9, 10⟩, ⟨11, 9, 10⟩, ⟨11, 9, 10⟩,
   ⟨11, 9, 10⟩, ⟨11, 9, 10⟩, ⟨11, 9, 10⟩, ⟨11, 9, 10⟩, ⟨11, 9, 10⟩]

/-- The ATR of `scenarioBars` is 2. -/
theorem atrLast_scenarioBars : atrLast scenarioBars = some 2 := by
  simp only [scenarioBars, atrLast, trueRanges, trTail]
  norm_num [max_def, abs_eq_max_neg]

/-- C4: in the secondary fusion stage, technical BUY + sentiment BUY escalates
    to STRONG BUY with HIGH confidence; technical SELL + sentiment SELL
    escalates to STRONG SELL with HIGH confidence; disagreement (BUY/SELL or
    SELL/BUY) yields HOLD with LOW confidence; and for every sentiment input
    the fused output never has the opposite direction of the technical
    signal. -/
theorem fusion_transition_table :
    fuseSignals "BUY" "BUY" = ("STRONG BUY", "HIGH") ∧
    fuseSignals "SELL" "SELL" = ("STRONG SELL", "HIGH") ∧
    fuseSignals "BUY" "SELL" = ("HOLD", "LOW") ∧
    fuseSignals "SELL" "BUY" = ("HOLD", "LOW") ∧
    (∀ news : String, (fuseSignals "BUY" news).1 = "STRONG BUY" ∨
      (fuseSignals "BUY" news).1 = "BUY" ∨ (fuseSignals "BUY" news).1 = "HOLD") ∧
    (∀ news : String, (fuseSignals "SELL" news).1 = "STRONG SELL" ∨
      (fuseSignals "SELL" news).1 = "SELL" ∨ (fuseSignals "SELL" news).1 = "HOLD") ∧
    (∀ news : String, (fuseSignals "HOLD" news).1 = "HOLD") := by
  refine ⟨by decide, by decide, by decide, by decide, ?_, ?_, ?_⟩
  · intro news
    by_cases hb : news = "BUY" <;> by_cases hs : news = "SELL" <;>
      simp [fuseSignals, hb, hs]
  · intro news
    by_cases hb : news = "BUY" <;> by_cases hs : news = "SELL" <;>
      simp [fuseSignals, hb, hs]
  · intro news
    by_cases hb : news = "BUY" <;> by_cases hs : news = "SELL" <;>
      simp [fuseSignals, hb, hs]

/-- C5: the daily limit guard blocks a BUY exactly when today's total trade
    count reached `max_daily_trades` or today's BUY count reached
    `max_daily_buys`, and blocks a SELL exactly when the total cap or the SELL
    cap is reached; with `max_daily_buys = 1` and one BUY already recorded
    today, a second BUY is blocked. -/
theorem check_daily_limits_spec :
    (∀ (trades : List DbTradeRec) (today maxT maxB maxS : ℕ),
      (check_daily_limits trades today maxT maxB maxS "BUY" = false ↔
        maxT ≤ (today_counts trades today).1 ∨ maxB ≤ (today_counts trades today).2.1) ∧
      (check_daily_limits trades today maxT maxB maxS "SELL" = false ↔
        maxT ≤ (today_counts trades today).1 ∨ maxS ≤ (today_counts trades today).2.2)) ∧
    check_daily_limits [⟨"BUY", 0⟩] 0 20 1 10 "BUY" = false := by
  refine ⟨?_, by decide⟩
  intro trades today maxT maxB maxS
  constructor <;>
    · simp only [check_daily_limits]
      split_ifs with h1 h2 h3 <;> simp_all

/-- C1: evaluation at the failing input — a cycle whose growth figures are
    Python `None` (both checks on their no-data paths) raises a TypeError
    while building the hold criteria, producing no signal at all instead of
    the table's HOLD outcome — together with the ranked transition table on
    every cycle whose growth comparisons do evaluate: any sell reason present
    yields SELL with confidence `30 × (number of sell reasons)` capped at 100
    and the joined sell reasons as the reason, regardless of the buy score;
    otherwise buy score 4 yields STRONG BUY at 95, buy score 3 yields BUY at
    75, at least one hold-supporting fact yields HOLD at 50, and otherwise
    HOLD at 30. -/
theorem generate_signal_crash_and_table :
    generate_signal ⟨false, false, false, false, 100, 95, 90, false, none, none⟩ =
      none ∧
    (∀ (i : SignalInputs) (pf : Bool),
      positive_growth_check i.eps_yoy_growth i.annual_avg_growth = some pf →
      (sell_reasons i ≠ [] →
        generate_signal i =
          some { signal := "SELL", confidence := min 100 (30 * (sell_reasons i).length),
                 reason := String.intercalate "; " (sell_reasons i) }) ∧
      (sell_reasons i = [] → buy_score i = 4 →
        generate_signal i =
          some { signal := "STRONG BUY", confidence := 95,
                 reason := "All buy criteria met: Fundamentals + Technicals + Volume + Market" }) ∧
      (sell_reasons i = [] → buy_score i = 3 →
        generate_signal i =
          some { signal := "BUY", confidence := 75, reason := "3 of 4 buy criteria met" }) ∧
      (sell_reasons i = [] → buy_score i ≠ 4 → buy_score i ≠ 3 →
        1 ≤ i.above_50.toNat + pf.toNat →
        generate_signal i =
          some { signal := "HOLD", confidence := 50,
                 reason := "Stock maintaining support, fundamentals stable" }) ∧
      (sell_reasons i = [] → buy_score i ≠ 4 → buy_score i ≠ 3 →
        i.above_50.toNat + pf.toNat = 0 →
        generate_signal i =
          some { signal := "HOLD", confidence := 30,
                 reason := "Insufficient buy/sell signals" })) := by
  refine ⟨rfl, ?_⟩
  intro i pf hpf
  refine ⟨?_, ?_, ?_, ?_, ?_⟩
  · intro hsr
    simp [generate_signal, hpf, hsr]
  · intro hsr h4
    simp [generate_signal, hpf, hsr, h4]
  · intro hsr h3
    simp [generate_signal, hpf, hsr, h3]
  · intro hsr h4 h3 hh
    simp [generate_signal, hpf, hsr, h4, h3, hh]
  · intro hsr h4 h3 hh
    simp [generate_signal, hpf, hsr, h4, h3, hh]

/-- C1 witness: Scenario B (price 90, 50-MA 95, 200-MA 110: two sell reasons,
    SELL at confidence 60 even though the buy score is 4) and Scenario A
    (all four buy criteria met, no sell reason: STRONG BUY at 95), both with
    growth figures present (30%). -/
theorem generate_signal_crash_and_table_witness :
    generate_signal ⟨true, true, true, true, 90, 95, 110, false, some 30, some 30⟩ =
      some { signal := "SELL", confidence := 60,
             reason := "Price below 50-day MA; Price below 200-day MA" } ∧
    generate_signal ⟨true, true, true, true, 100, 95, 90, true, some 30, some 30⟩ =
      some { signal := "STRONG BUY", confidence := 95,
             reason := "All buy criteria met: Fundamentals + Technicals + Volume + Market" } := by
  refine ⟨?_, ?_⟩
  · have h :=
      (generate_signal_crash_and_table.2
        ⟨true, true, true, true, 90, 95, 110, false, some 30, some 30⟩ true
        (by decide)).1 (by decide)
    exact h.trans (by decide)
  · exact (generate_signal_crash_and_table.2
      ⟨true, true, true, true, 100, 95, 90, true, some 30, some 30⟩ true
      (by decide)).2.1 (by decide) (by decide)

/-- C3: the ATR-risk position size equals
    `floor((equity × risk_pct) / (ATR × stop_multiplier))`, and the computed
    quantity is 0 whenever ATR is undefined (fewer than 15 bars), ATR ≤ 0,
    account equity ≤ 0, or entry price ≤ 0. -/
theorem position_size_spec :
    (∀ (e p r m : ℚ) (bars : List PriceBar),
      e ≤ 0 ∨ p ≤ 0 → calculate_position_size e p r m bars = 0) ∧
    (∀ (e p r m : ℚ) (bars : List PriceBar),
      bars.length < 15 → calculate_position_size e p r m bars = 0) ∧
    (∀ (e p r m a : ℚ) (bars : List PriceBar),
      atrLast bars = some a → a ≤ 0 → calculate_position_size e p r m bars = 0) ∧
    (∀ (e p r m a : ℚ) (bars : List PriceBar),
      0 < e → 0 < p → 0 ≤ r → 0 < m → atrLast bars = some a → 0 < a →
      ¬ bars.length < 15 →
      calculate_position_size e p r m bars = ⌊e * r / (a * m)⌋) := by
  refine ⟨?_, ?_, ?_, ?_⟩
  · intro e p r m bars h
    simp [calculate_position_size, h]
  · intro e p r m bars h
    by_cases h0 : e ≤ 0 ∨ p ≤ 0 <;> simp [calculate_position_size, h, h0]
  · intro e p r m a bars ha hle
    by_cases h0 : e ≤ 0 ∨ p ≤ 0
    · simp [calculate_position_size, h0]
    · by_cases hlen : bars.length < 15 <;>
        simp [calculate_position_size, h0, hlen, ha, hle]
  · intro e p r m a bars he hp hr hm ha ha0 hlen
    have hper : 0 < a * m := mul_pos ha0 hm
    have hq : 0 ≤ e * r / (a * m) :=
      div_nonneg (mul_nonneg he.le hr) hper.le
    simp only [calculate_position_size, ha]
    rw [if_neg (by push_neg; exact ⟨he, hp⟩), if_neg hlen,
      if_neg (not_le.mpr ha0), if_neg (not_le.mpr hper)]
    rw [pyInt, if_pos hq]
    exact max_eq_left (Int.le_floor.mpr (by exact_mod_cast hq))

/-- C3 witness: Scenario C — equity 100000, risk 1%, constant bars with
    ATR 2, stop multiplier 2 give quantity 250 (= floor(1000/4)); and an
    11-bar series (ATR undefined) gives quantity 0. -/
theorem position_size_spec_witness :
    calculate_position_size 100000 10 (1 / 100) 2 scenarioBars = 250 ∧
    calculate_position_size 100000 10 (1 / 100) 2 [⟨11, 9, 10⟩] = 0 := by
  constructor
  · have h := position_size_spec.2.2.2 100000 10 (1 / 100) 2 2
      scenarioBars (by norm_num) (by norm_num) (by norm_num) (by norm_num)
      atrLast_scenarioBars (by norm_num) (by decide)
    exact h.trans (by norm_num)
  · exact position_size_spec.2.1 100000 10 (1 / 100) 2 [⟨11, 9, 10⟩] (by decide)

/-- C9: holding equity, entry price, ATR (the bar series) and the stop
    multiplier fixed, the ATR-risk computed quantity is monotonically
    non-decreasing in the risk percentage. -/
theorem position_size_monotone (e p m a r1 r2 : ℚ) (bars : List PriceBar)
    (he : 0 < e) (hm : 0 < m) (ha : atrLast bars = some a) (ha0 : 0 < a)
    (hr : r1 ≤ r2) :
    calculate_position_size e p r1 m bars ≤ calculate_position_size e p r2 m bars := by
  by_cases h0 : e ≤ 0 ∨ p ≤ 0
  · simp [calculate_position_size, h0]
  · by_cases hlen : bars.length < 15
    · simp [calculate_position_size, h0, hlen]
    · have hper : 0 < a * m := mul_pos ha0 hm
      simp only [calculate_position_size, ha, if_neg h0, if_neg hlen,
        if_neg (not_le.mpr ha0), if_neg (not_le.mpr hper)]
      have hmul : e * r1 ≤ e * r2 := mul_le_mul_of_nonneg_left hr he.le
      exact max_le_max (pyInt_mono (div_le_div_of_nonneg_right hmul hper.le)) le_rfl

/-- C9 witness: at Scenario C's bars, the quantity at risk 0.5% is at most
    the quantity at risk 1%. -/
theorem position_size_monotone_witness :
    calculate_position_size 100000 10 (1 / 200) 2 scenarioBars ≤
      calculate_position_size 100000 10 (1 / 100) 2 scenarioBars :=
  position_size_monotone 100000 10 2 2 (1 / 200) (1 / 100) scenarioBars
    (by norm_num) (by norm_num) atrLast_scenarioBars (by norm_num) (by norm_num)

/-- `rint` is the identity on integers. -/
theorem rint_intCast (z : ℤ) : rint (z : ℚ) = z := by
  simp [rint, Int.floor_intCast]

/-- Every pair emitted by the matching loop has a PnL that is a whole number
    of cents (it went through `round(..., 2)`). -/
theorem matchSell_pnl_cent (sym : String) (sp : ℚ) :
    ∀ (lots : List Lot) (sq : ℚ), ∀ p ∈ (matchSell sym sp lots sq).1,
      ∃ z : ℤ, p.pnl = (z : ℚ) / 100 := by
  intro lots
  induction lots with
  | nil =>
    intro sq p hp
    simp [matchSell] at hp
  | cons lot rest ih =>
    intro sq p hp
    by_cases h0 : sq ≤ 0
    · simp [matchSell, h0] at hp
    · simp only [matchSell, if_neg h0] at hp
      by_cases h1 : lot.qty - min lot.qty sq ≤ 0
      · rw [if_pos h1] at hp
        rcases List.mem_cons.mp hp with h | h
        · refine ⟨rint ((sp - lot.price) * min lot.qty sq * 10 ^ 2), ?_⟩
          rw [h]
          simp [mkPair, pyRound]
          norm_num
        · exact ih _ p h
      · rw [if_neg h1] at hp
        simp only [List.mem_singleton] at hp
        refine ⟨rint ((sp - lot.price) * min lot.qty sq * 10 ^ 2), ?_⟩
        rw [hp]
        simp [mkPair, pyRound]
        norm_num

/-- Every pair in the reconciler's state after the row loop has a
    cent-valued PnL. -/
theorem analyze_pnl_state_cent (log : List TradeRow) :
    ∀ p ∈ (analyze_pnl_state log).pairs, ∃ z : ℤ, p.pnl = (z : ℚ) / 100 := by
  have main : ∀ (l : List TradeRow) (st : ReconState),
      (∀ p ∈ st.pairs, ∃ z : ℤ, p.pnl = (z : ℚ) / 100) →
      ∀ p ∈ (l.foldl reconStep st).pairs, ∃ z : ℤ, p.pnl = (z : ℚ) / 100 := by
    intro l
    induction l with
    | nil => intro st h; simpa using h
    | cons row t ih =>
      intro st h
      refine ih _ ?_
      intro p hp
      simp only [reconStep] at hp
      split_ifs at hp with hb hs
      · exact h p hp
      · simp only at hp
        rcases List.mem_append.mp hp with h1 | h1
        · exact h p h1
        · exact matchSell_pnl_cent _ _ _ _ p h1
      · exact h p hp
  intro p hp
  exact main log ⟨[], []⟩ (by simp) p hp

/-- A sum of cent-valued PnLs is cent-valued. -/
theorem sum_cent (l : List PnLPair)
    (h : ∀ p ∈ l, ∃ z : ℤ, p.pnl = (z : ℚ) / 100) :
    ∃ z : ℤ, (l.map (fun p => p.pnl)).sum = (z : ℚ) / 100 := by
  induction l with
  | nil => exact ⟨0, by simp⟩
  | cons p t ih =>
    obtain ⟨z1, hz1⟩ := h p (List.mem_cons_self p t)
    obtain ⟨z2, hz2⟩ := ih (fun q hq => h q (List.mem_cons_of_mem p hq))
    refine ⟨z1 + z2, ?_⟩
    simp [hz1, hz2]
    ring

/-- `pyRound` at two digits is the identity on cent-valued rationals. -/
theorem pyRound_cent (z : ℤ) : pyRound ((z : ℚ) / 100) 2 = (z : ℚ) / 100 := by
  have h : ((z : ℚ) / 100) * 10 ^ 2 = (z : ℚ) := by
    norm_num
  rw [pyRound, h, rint_intCast]
  norm_num

/-- C2 counterexample: the claim states the emitted pair carries
    `pnl = (sell_price − lot_price) × matched_qty`, but the code stores
    `round(pnl, 2)`: selling 1 share at 110.001 against a lot bought at 100
    records pnl 10, while the claimed product is 10.001 ≠ 10. -/
theorem pair_pnl_rounding_counterexample :
    (matchSell "AAPL" (110001 / 1000) [⟨100, 10⟩] 1).1 =
      [⟨"AAPL", 100, 110001 / 1000, 1, 10⟩] ∧
    ¬ ((110001 / 1000 : ℚ) - 100) * 1 = 10 := by
  constructor
  · norm_num [matchSell, mkPair, pyRound, rint, min_def]
  · norm_num

/-- C2 amended: the matching loop is FIFO — with a positive remaining sell
    quantity, the oldest lot is matched for `min(lot.qty, sell_qty)` shares,
    a pair recording the prices rounded to 4 decimals and
    `pnl = round((sell_price − lot_price) × matched_qty, 2)` is emitted, both
    quantities are decremented, and matching continues until the sell is
    fully matched or no lots remain; Scenario D produces exactly one pair
    (buy 100, sell 110, qty 6, pnl 60 — the rounding is the identity there)
    and leaves an open lot of quantity 4. -/
theorem fifo_sell_matching :
    (∀ (sym : String) (sp sq : ℚ) (lot : Lot) (rest : List Lot),
      0 < sq → lot.qty ≤ sq →
      matchSell sym sp (lot :: rest) sq =
        (mkPair sym lot.price sp lot.qty :: (matchSell sym sp rest (sq - lot.qty)).1,
         (matchSell sym sp rest (sq - lot.qty)).2)) ∧
    (∀ (sym : String) (sp sq : ℚ) (lot : Lot) (rest : List Lot),
      0 < sq → sq < lot.qty →
      matchSell sym sp (lot :: rest) sq =
        ([mkPair sym lot.price sp sq], ⟨lot.price, lot.qty - sq⟩ :: rest)) ∧
    (∀ (sym : String) (sp sq : ℚ), matchSell sym sp [] sq = ([], [])) ∧
    (∀ (sym : String) (sp sq : ℚ) (lot : Lot) (rest : List Lot),
      sq ≤ 0 → matchSell sym sp (lot :: rest) sq = ([], lot :: rest)) ∧
    analyze_pnl_state scenarioD_log =
      ⟨[("AAPL", [⟨100, 4⟩])], [⟨"AAPL", 100, 110, 6, 60⟩]⟩ ∧
    (analyze_pnl scenarioD_log).pair_details = [⟨"AAPL", 100, 110, 6, 60⟩] ∧
    (analyze_pnl scenarioD_log).realized_pnl = 60 := by
  have hstate : analyze_pnl_state scenarioD_log =
      ⟨[("AAPL", [⟨100, 4⟩])], [⟨"AAPL", 100, 110, 6, 60⟩]⟩ := by
    have hA : pyUpper "AAPL" = "AAPL" := rfl
    have hB : pyUpper "BUY" = "BUY" := rfl
    have hO : pyUpper "OPEN" = "OPEN" := rfl
    have hS : pyUpper "SELL" = "SELL" := rfl
    have hF : pyUpper "FILLED" = "FILLED" := rfl
    simp only [scenarioD_log, analyze_pnl_state, List.foldl, reconStep, hA, hB, hO, hS, hF]
    norm_num [setLots, lotsOf, matchSell, mkPair, pyRound, rint]
    decide
  refine ⟨?_, ?_, ?_, ?_, hstate, ?_, ?_⟩
  · intro sym sp sq lot rest h0 hle
    have hm : min lot.qty sq = lot.qty := min_eq_left hle
    simp [matchSell, not_le.mpr h0, hm]
  · intro sym sp sq lot rest h0 hlt
    have hm : min lot.qty sq = sq := min_eq_right hlt.le
    have hne : ¬ lot.qty - sq ≤ 0 := not_le.mpr (sub_pos.mpr hlt)
    simp [matchSell, not_le.mpr h0, hm, hne]
  · intro sym sp sq
    simp [matchSell]
  · intro sym sp sq lot rest h
    simp [matchSell, h]
  · simp [analyze_pnl, hstate]
  · simp [analyze_pnl, hstate]
    norm_num [pyRound, rint]

/-- C2 witness: one step of the loop on the Scenario D lot and sell. -/
theorem fifo_sell_matching_witness :
    matchSell "AAPL" 110 [⟨100, 10⟩] 6 = ([⟨"AAPL", 100, 110, 6, 60⟩], [⟨100, 4⟩]) := by
  have h := fifo_sell_matching.2.1 "AAPL" 110 6 ⟨100, 10⟩ [] (by norm_num) (by norm_num)
  refine h.trans ?_
  norm_num [mkPair, pyRound, rint]

/-- C6 counterexample: on a log with one winning pair the reported win rate
    is 100 (a percentage), not the ratio 1 = wins/total that the claim
    states. -/
theorem win_rate_counterexample :
    (analyze_pnl oneWin_log).paired_trades = 1 ∧
    ((analyze_pnl oneWin_log).pair_details.filter (fun p => decide (0 < p.pnl))).length = 1 ∧
    (analyze_pnl oneWin_log).win_rate = 100 ∧
    ¬ (analyze_pnl oneWin_log).win_rate = (1 : ℚ) := by
  have hA : pyUpper "AAPL" = "AAPL" := rfl
  have hB : pyUpper "BUY" = "BUY" := rfl
  have hO : pyUpper "OPEN" = "OPEN" := rfl
  have hS : pyUpper "SELL" = "SELL" := rfl
  have hF : pyUpper "FILLED" = "FILLED" := rfl
  have hstate : analyze_pnl_state oneWin_log =
      ⟨[("AAPL", [])], [⟨"AAPL", 100, 110, 1, 10⟩]⟩ := by
    simp only [oneWin_log, analyze_pnl_state, List.foldl, reconStep, hA, hB, hO, hS, hF]
    norm_num [setLots, lotsOf, matchSell, mkPair, pyRound, rint]
    decide
  refine ⟨?_, ?_, ?_, ?_⟩ <;>
    simp [analyze_pnl, hstate] <;>
    norm_num [pyRound, rint]

/-- C6 amended: a SELL row for a symbol with no open buy lots leaves the
    reconciler state unchanged (no pairs, no error); the realized PnL equals
    the sum of the pair PnLs; and the win rate is the percentage
    `100 × wins / pairs` rounded to two digits, reported as 0 when no pairs
    exist. -/
theorem pnl_reporting_amended :
    (∀ (st : ReconState) (row : TradeRow),
      pyUpper row.action = "SELL" → lotsOf st.open_buys (pyUpper row.symbol) = [] →
      reconStep st row = st) ∧
    (∀ log : List TradeRow,
      (analyze_pnl log).realized_pnl =
        ((analyze_pnl log).pair_details.map (fun p => p.pnl)).sum) ∧
    (∀ log : List TradeRow, (analyze_pnl log).paired_trades = 0 →
      (analyze_pnl log).win_rate = 0) ∧
    (∀ log : List TradeRow, (analyze_pnl log).paired_trades ≠ 0 →
      (analyze_pnl log).win_rate =
        pyRound ((((analyze_pnl log).pair_details.filter
            (fun p => decide (0 < p.pnl))).length : ℚ) /
          ((analyze_pnl log).paired_trades : ℚ) * 100) 2) := by
  refine ⟨?_, ?_, ?_, ?_⟩
  · intro st row h1 h2
    simp only [reconStep, h1, h2]
    norm_num
    exact fun hbad _ => absurd hbad (by decide)
  · intro log
    obtain ⟨z, hz⟩ := sum_cent _ (analyze_pnl_state_cent log)
    simp only [analyze_pnl, hz, pyRound_cent]
  · intro log h
    simp only [analyze_pnl] at h ⊢
    simp [h]
  · intro log h
    simp only [analyze_pnl] at h ⊢
    simp [h]

/-- C6 amended witness: a SELL with no tracked entry is dropped without
    effect, and the empty log reports win rate 0. -/
theorem pnl_reporting_amended_witness :
    reconStep ⟨[], []⟩ ⟨"AAPL", "FILLED", "SELL", 110, 5⟩ = ⟨[], []⟩ ∧
    (analyze_pnl []).win_rate = 0 := by
  constructor
  · exact pnl_reporting_amended.1 ⟨[], []⟩ ⟨"AAPL", "FILLED", "SELL", 110, 5⟩ rfl rfl
  · exact pnl_reporting_amended.2.2.1 [] rfl

/-- C7 counterexample: on a constant series the final smoothed average loss
    is 0 and the final smoothed average gain is defined (it is 0), yet the
    RSI is NaN (`0/0`), not 100 — the division is not guarded. -/
theorem rsi_zero_loss_counterexample :
    avg_loss_last flatCloses 14 = some 0 ∧
    avg_gain_last flatCloses 14 = some 0 ∧
    ¬ rsi_last flatCloses 14 = some 100 := by
  have hl : avg_loss_last flatCloses 14 = some 0 := by
    norm_num [flatCloses, avg_loss_last, diffs, ewmLast]
  have hg : avg_gain_last flatCloses 14 = some 0 := by
    norm_num [flatCloses, avg_gain_last, diffs, ewmLast]
  refine ⟨hl, hg, ?_⟩
  simp [rsi_last, hl, hg]

/-- C7 amended: whenever the final smoothed average loss is 0 and the final
    smoothed average gain is defined and positive, the RSI at the final bar
    is the defined value 100 (no division-by-zero error is raised; when both
    averages are 0 the RSI is NaN instead). -/
theorem rsi_zero_loss_amended (closes : List ℚ) (period : ℕ) (g : ℚ)
    (hl : avg_loss_last closes period = some 0)
    (hg : avg_gain_last closes period = some g) (hpos : 0 < g) :
    rsi_last closes period = some 100 := by
  simp [rsi_last, hl, hg, hpos]

/-- C7 amended witness: a strictly rising series has average loss 0 and
    average gain 1, so its RSI is 100. -/
theorem rsi_zero_loss_amended_witness : rsi_last upCloses 14 = some 100 := by
  refine rsi_zero_loss_amended upCloses 14 1 ?_ ?_ (by norm_num)
  · norm_num [upCloses, avg_loss_last, diffs, ewmLast]
  · norm_num [upCloses, avg_gain_last, diffs, ewmLast]

/-- C8 evaluation at the failing input: with all four horizons available, a
    gain lying entirely more than 126 bars in the past (252-bar return 10%,
    shorter returns 0) against a flat benchmark is rated
    `50 + 0.4 × 10 = 54`: the heaviest weight 0.4 multiplies the longest
    (252-bar) horizon.  Under the claimed weighting (heaviest weight on the
    most recent horizon) the rating would be `50 + 0.1 × 10 = 51`. -/
theorem rs_rating_weights_longest_horizon :
    calculate_relative_strength staleGainStock flatBenchmark = some 54 ∧
    ¬ calculate_relative_strength staleGainStock flatBenchmark = some 51 := by
  have hsl : staleGainStock.length = 252 := by
    rw [staleGainStock, List.length_append, List.length_replicate, List.length_replicate]
  have hbl : flatBenchmark.length = 252 := by
    rw [flatBenchmark, List.length_replicate]
  have hrep : (List.replicate 126 (10 : ℚ)).length = 126 := List.length_replicate 126 10
  have hs0 : staleGainStock.getD 0 0 = 10 := by
    rw [staleGainStock, List.getD_append _ _ _ _ (by rw [hrep]; norm_num)]
    exact getD_replicate _ _ _ _ (by norm_num)
  have hs126 : staleGainStock.getD 126 0 = 11 := by
    rw [staleGainStock, List.getD_append_right _ _ _ _ (by rw [hrep])]
    exact getD_replicate _ _ _ _ (by rw [hrep]; norm_num)
  have hs189 : staleGainStock.getD 189 0 = 11 := by
    rw [staleGainStock, List.getD_append_right _ _ _ _ (by rw [hrep]; norm_num)]
    exact getD_replicate _ _ _ _ (by rw [hrep]; norm_num)
  have hs231 : staleGainStock.getD 231 0 = 11 := by
    rw [staleGainStock, List.getD_append_right _ _ _ _ (by rw [hrep]; norm_num)]
    exact getD_replicate _ _ _ _ (by rw [hrep]; norm_num)
  have hs251 : staleGainStock.getD 251 0 = 11 := by
    rw [staleGainStock, List.getD_append_right _ _ _ _ (by rw [hrep]; norm_num)]
    exact getD_replicate _ _ _ _ (by rw [hrep]; norm_num)
  have hb : ∀ i, i < 252 → flatBenchmark.getD i 0 = 10 := by
    intro i h
    exact getD_replicate _ _ _ _ h
  have e1 : (252 : ℕ) - 1 = 251 := rfl
  have e252 : (252 : ℕ) - 252 = 0 := rfl
  have e126 : (252 : ℕ) - 126 = 126 := rfl
  have e63 : (252 : ℕ) - 63 = 189 := rfl
  have e21 : (252 : ℕ) - 21 = 231 := rfl
  have hr252 : ret_over staleGainStock 252 = 10 := by
    rw [ret_over, hsl, e1, e252, hs251, hs0]
    norm_num
  have hr126 : ret_over staleGainStock 126 = 0 := by
    rw [ret_over, hsl, e1, e126, hs251, hs126]
    norm_num
  have hr63 : ret_over staleGainStock 63 = 0 := by
    rw [ret_over, hsl, e1, e63, hs251, hs189]
    norm_num
  have hr21 : ret_over staleGainStock 21 = 0 := by
    rw [ret_over, hsl, e1, e21, hs251, hs231]
    norm_num
  have hrb : ∀ p : ℕ, 1 ≤ p → p ≤ 252 → ret_over flatBenchmark p = 0 := by
    intro p h1 h2
    rw [ret_over, hbl, e1, hb 251 (by norm_num), hb (252 - p) (by omega)]
    norm_num
  have hret : rs_returns staleGainStock flatBenchmark =
      [(10, 0), (0, 0), (0, 0), (0, 0)] := by
    rw [rs_returns, rs_periods]
    simp only [List.filterMap_cons, List.filterMap_nil, hsl, hbl]
    norm_num [hr252, hr126, hr63, hr21,
      hrb 252 (by norm_num) (by norm_num), hrb 126 (by norm_num) (by norm_num),
      hrb 63 (by norm_num) (by norm_num), hrb 21 (by norm_num) (by norm_num)]
  constructor
  · rw [calculate_relative_strength, hret, rs_weights]
    norm_num [min_def, max_def]
    exact fun h => absurd h (List.cons_ne_nil _ _)
  · rw [calculate_relative_strength, hret, rs_weights]
    norm_num [min_def, max_def]

/-- After erasing a symbol's binding from an association list with distinct
    keys, a lookup of that symbol finds nothing. -/
theorem find?_eraseP_self {ps : List (String × Position)} {sym : String}
    (h : (ps.map Prod.fst).Nodup) :
    (ps.eraseP (fun p => p.1 == sym)).find? (fun p => p.1 == sym) = none := by
  induction ps with
  | nil => rfl
  | cons a t ih =>
    simp only [List.map_cons, List.nodup_cons] at h
    by_cases ha : a.1 = sym
    · rw [List.eraseP_cons_of_pos (by simp [ha])]
      rw [List.find?_eq_none]
      intro x hx hbeq
      exact h.1 (ha ▸ (beq_iff_eq.mp hbeq) ▸ List.mem_map_of_mem Prod.fst hx)
    · rw [List.eraseP_cons_of_neg (by simp [ha])]
      rw [List.find?_cons_of_neg _ (by simp [ha])]
      exact ih h.2

/-- Erasing one symbol's binding leaves lookups of other symbols unchanged. -/
theorem find?_eraseP_other {ps : List (String × Position)} {sym sym2 : String}
    (hne : sym2 ≠ sym) :
    (ps.eraseP (fun p => p.1 == sym)).find? (fun p => p.1 == sym2) =
      ps.find? (fun p => p.1 == sym2) := by
  induction ps with
  | nil => rfl
  | cons a t ih =>
    by_cases ha : a.1 = sym
    · rw [List.eraseP_cons_of_pos (by simp [ha]),
        List.find?_cons_of_neg _ (by simp [ha]; exact fun hc => hne hc.symm)]
    · rw [List.eraseP_cons_of_neg (by simp [ha])]
      by_cases hb : a.1 = sym2
      · rw [List.find?_cons_of_pos _ (by simp [hb]), List.find?_cons_of_pos _ (by simp [hb])]
      · rw [List.find?_cons_of_neg _ (by simp [hb]), List.find?_cons_of_neg _ (by simp [hb])]
        exact ih

/-- A lookup miss means no binding carries the symbol. -/
theorem posn_eq_none_iff {ps : List (String × Position)} {sym : String} :
    posn ps sym = none ↔ ∀ x ∈ ps, ¬ x.1 = sym := by
  unfold posn
  rw [Option.map_eq_none', List.find?_eq_none]
  simp

/-- `enter_long` preserves distinctness of the position keys. -/
theorem keysNodup_enter_long (s : SimState) (sym : String) (price : ℚ)
    (h : keysNodup s) : keysNodup (enter_long s sym price) := by
  unfold enter_long
  split_ifs with h1 h2
  · exact h
  · simpa [logRow, keysNodup] using h
  · simp only [logRow, keysNodup, List.map_append, List.map_cons, List.map_nil] at h ⊢
    rw [List.nodup_append]
    refine ⟨h, List.nodup_singleton _, ?_⟩
    intro a ha hb
    simp only [List.mem_singleton] at hb
    obtain ⟨x, hx, hxa⟩ := List.mem_map.mp ha
    have hnone := posn_eq_none_iff.mp (Option.not_isSome_iff_eq_none.mp h1)
    exact hnone x hx (hxa.trans hb)

/-- `enter_short` preserves distinctness of the position keys. -/
theorem keysNodup_enter_short (s : SimState) (sym : String) (price : ℚ)
    (h : keysNodup s) : keysNodup (enter_short s sym price) := by
  unfold enter_short
  split_ifs with h1
  · exact h
  · simp only [logRow, keysNodup, List.map_append, List.map_cons, List.map_nil] at h ⊢
    rw [List.nodup_append]
    refine ⟨h, List.nodup_singleton _, ?_⟩
    intro a ha hb
    simp only [List.mem_singleton] at hb
    obtain ⟨x, hx, hxa⟩ := List.mem_map.mp ha
    have hnone := posn_eq_none_iff.mp (Option.not_isSome_iff_eq_none.mp h1)
    exact hnone x hx (hxa.trans hb)

/-- `exit_position` preserves distinctness of the position keys. -/
theorem keysNodup_exit_position (s : SimState) (sym : String) (price : ℚ)
    (note : String) (h : keysNodup s) : keysNodup (exit_position s sym price note) := by
  unfold exit_position
  cases hp : posn s.positions sym with
  | none => exact h
  | some pos =>
    simp only [logRow, keysNodup] at h ⊢
    exact List.Nodup.sublist ((List.eraseP_sublist _).map Prod.fst) h

/-- `manage_exits` preserves distinctness of the position keys. -/
theorem keysNodup_manage_exits (s : SimState) (sym : String) (price : ℚ)
    (h : keysNodup s) : keysNodup (manage_exits s sym price) := by
  unfold manage_exits
  cases hp : posn s.positions sym with
  | none => exact h
  | some pos =>
    dsimp only
    split_ifs <;>
      first
        | exact keysNodup_exit_position s sym price _ h
        | exact h

/-- C10: the simulator keeps at most one open position per symbol —
    `enter_long`/`enter_short` leave the state entirely unchanged when the
    symbol already has a position, `exit_position` removes exactly that
    symbol's position (lookups of other symbols are untouched), and every
    reachable state has pairwise-distinct position keys. -/
theorem simulator_one_position_per_symbol :
    (∀ (s : SimState) (sym : String) (price : ℚ),
      (posn s.positions sym).isSome →
      enter_long s sym price = s ∧ enter_short s sym price = s) ∧
    (∀ (s : SimState) (sym : String) (price : ℚ) (note : String),
      keysNodup s → posn (exit_position s sym price note).positions sym = none) ∧
    (∀ (s : SimState) (sym sym2 : String) (price : ℚ) (note : String),
      sym2 ≠ sym →
      posn (exit_position s sym price note).positions sym2 = posn s.positions sym2) ∧
    (∀ s : SimState, Reachable s → keysNodup s) := by
  refine ⟨?_, ?_, ?_, ?_⟩
  · intro s sym price h
    constructor
    · unfold enter_long
      rw [if_pos h]
    · unfold enter_short
      rw [if_pos h]
  · intro s sym price note h
    unfold exit_position
    cases hp : posn s.positions sym with
    | none => exact hp
    | some pos =>
      simp only [logRow, posn]
      rw [find?_eraseP_self h]
      rfl
  · intro s sym sym2 price note hne
    unfold exit_position
    cases hp : posn s.positions sym with
    | none => rfl
    | some pos =>
      simp only [logRow, posn]
      rw [find?_eraseP_other hne]
  · intro s h
    induction h with
    | init => exact List.nodup_nil
    | enterLong s sym price _ ih => exact keysNodup_enter_long s sym price ih
    | enterShort s sym price _ ih => exact keysNodup_enter_short s sym price ih
    | exitPos s sym price note _ ih => exact keysNodup_exit_position s sym price note ih
    | manageExits s sym price _ ih => exact keysNodup_manage_exits s sym price ih

/-- C10 witness: after opening a long on AAPL from the initial state, the
    keys are distinct, a second entry attempt for AAPL leaves the state
    unchanged, and exiting removes AAPL's position. -/
theorem simulator_one_position_per_symbol_witness :
    keysNodup (enter_long initState "AAPL" 10) ∧
    enter_long (enter_long initState "AAPL" 10) "AAPL" 20 =
      enter_long initState "AAPL" 10 ∧
    enter_short (enter_long initState "AAPL" 10) "AAPL" 20 =
      enter_long initState "AAPL" 10 ∧
    posn (exit_position (enter_long initState "AAPL" 10) "AAPL" 12 "Take-profit hit").positions
      "AAPL" = none := by
  have hreach : Reachable (enter_long initState "AAPL" 10) :=
    Reachable.enterLong _ _ _ Reachable.init
  have hnodup := simulator_one_position_per_symbol.2.2.2 _ hreach
  have hstate : enter_long initState "AAPL" 10 =
      ⟨[("AAPL", ⟨"LONG", 1, 10, 49 / 5, 21 / 2⟩)], 99990,
        [⟨"AAPL", "OPEN", "LONG", 1, 10, 99990, "Enter long"⟩]⟩ := by
    rw [enter_long]
    norm_num [initState, posn, logRow, QTY, SL_PCT, TP_PCT, pyRound, rint]
  have hsome : (posn (enter_long initState "AAPL" 10).positions "AAPL").isSome = true := by
    rw [hstate]
    decide
  have hpair := simulator_one_position_per_symbol.1 (enter_long initState "AAPL" 10)
    "AAPL" 20 hsome
  exact ⟨hnodup, hpair.1, hpair.2,
    simulator_one_position_per_symbol.2.1 (enter_long initState "AAPL" 10)
      "AAPL" 12 "Take-profit hit" hnodup⟩

end StockAnalysis
